import Mathlib

/-!
# Resilient Email Sending Service — verification development

Shallow embedding of the TypeScript resilient email service:
`CircuitBreaker`, `RateLimiter` (token bucket), and `EmailService`
(retry with exponential backoff, provider fallback, idempotency ledger,
deferred queue).  Timestamps are naturals (milliseconds, `Date.now()`),
token quotas are rationals (JS numbers on the values the code produces),
and the asynchronous clock is threaded explicitly: `await delay(ms)`
advances the clock by `ms`, everything else is instantaneous.
The background queue drain (`processQueue`) is a concurrent task and is
outside this sequential model; enqueueing is modelled up to the point
where control returns to the caller.
-/

namespace EmailSvc

/-- Circuit breaker state enum (`'closed' | 'open' | 'half-open'`). -/
inductive CBState where
  | closed
  | opened
  | halfOpen
deriving DecidableEq, Repr

/-- Model of `CircuitBreakerOptions` from `types.ts`. -/
structure CircuitBreakerOptions where
  failureThreshold : Nat
  resetTimeout : Nat
  monitoringWindow : Nat
deriving DecidableEq, Repr

/-- The mutable fields of class `CircuitBreaker`. -/
structure CircuitBreaker where
  failures : Nat
  lastFailureTime : Nat
  state : CBState
  successCount : Nat
  failureHistory : List Nat
deriving DecidableEq, Repr

/-- A freshly constructed `CircuitBreaker`. -/
def CircuitBreaker.init : CircuitBreaker :=
  { failures := 0, lastFailureTime := 0, state := .closed, successCount := 0,
    failureHistory := [] }

/-- Find the first entry satisfying `p` (`findIndex`); splice everything before it
off when that index is positive (a miss returns `-1`, which is not `> 0`,
so nothing is removed). -/
def pruneAt (p : Nat → Bool) (h : List Nat) : List Nat :=
  match h.findIdx? p with
  | some i => if 0 < i then h.drop i else h
  | none => h

/-- Model of `CircuitBreaker.cleanupHistory`: `cutoff = Date.now() - monitoringWindow`;
`findIndex(time => time >= cutoff)`; `if (index > 0) splice(0, index)`.
Note a `findIndex` miss yields `-1`, which is not `> 0`, so nothing is
removed when no entry reaches the cutoff. -/
def cleanupHistory (o : CircuitBreakerOptions) (h : List Nat) (now : Nat) : List Nat :=
  let cutoff : Int := (now : Int) - (o.monitoringWindow : Int)
  pruneAt (fun t : Nat => decide (cutoff ≤ (t : Int))) h

/-- Count of failure timestamps within the monitoring window, as computed by
`failureHistory.filter(time => Date.now() - time < monitoringWindow)`. -/
def recentCount (o : CircuitBreakerOptions) (h : List Nat) (now : Nat) : Nat :=
  (h.filter fun t : Nat =>
    decide ((now : Int) - (t : Int) < (o.monitoringWindow : Int))).length

/-- Model of `CircuitBreaker.onSuccess`. -/
def onSuccess (o : CircuitBreakerOptions) (cb : CircuitBreaker) (now : Nat) : CircuitBreaker :=
  let cb1 : CircuitBreaker :=
    { cb with failures := 0, failureHistory := cleanupHistory o cb.failureHistory now }
  if cb1.state = .halfOpen then
    let sc := cb1.successCount + 1
    if 2 ≤ sc then { cb1 with successCount := sc, state := .closed }
    else { cb1 with successCount := sc }
  else cb1

/-- Model of `CircuitBreaker.onFailure`. -/
def onFailure (o : CircuitBreakerOptions) (cb : CircuitBreaker) (now : Nat) : CircuitBreaker :=
  let cb1 : CircuitBreaker :=
    { cb with failures := cb.failures + 1, lastFailureTime := now,
              failureHistory := cleanupHistory o (cb.failureHistory ++ [now]) now }
  if cb1.state = .halfOpen then { cb1 with state := .opened }
  else if o.failureThreshold ≤ recentCount o cb1.failureHistory now then
    { cb1 with state := .opened }
  else cb1

/-- The open-state check at the top of `CircuitBreaker.execute`: returns the
(possibly half-opened) breaker and whether the operation may proceed. -/
def gateCheck (o : CircuitBreakerOptions) (cb : CircuitBreaker) (now : Nat) :
    CircuitBreaker × Bool :=
  if cb.state = .opened then
    if (o.resetTimeout : Int) < (now : Int) - (cb.lastFailureTime : Int) then
      ({ cb with state := .halfOpen, successCount := 0 }, true)
    else (cb, false)
  else (cb, true)

/-- Model of `CircuitBreaker.execute`, with the guarded operation's outcome supplied as
a value (`Except.error e` models a rejected promise with message `e`).
Returns the outcome seen by the caller, the updated breaker, and whether the
operation was actually invoked. -/
def executeStep {α : Type} (o : CircuitBreakerOptions) (cb : CircuitBreaker) (now : Nat)
    (op : Except String α) : Except String α × CircuitBreaker × Bool :=
  let g := gateCheck o cb now
  if g.2 then
    match op with
    | .ok a => (.ok a, onSuccess o g.1 now, true)
    | .error e => (.error e, onFailure o g.1 now, true)
  else (.error "Circuit breaker is OPEN", cb, false)

/-- Model of `RateLimitOptions` from `types.ts`. -/
structure RateLimitOptions where
  maxRequests : Nat
  windowMs : Nat
deriving DecidableEq, Repr

/-- The mutable fields of class `RateLimiter` (token bucket). -/
structure RateLimiter where
  tokens : ℚ
  lastRefill : Nat
  maxTokens : Nat
  refillRate : ℚ
deriving DecidableEq, Repr

/-- The `RateLimiter` constructor. -/
def RateLimiter.init (o : RateLimitOptions) (now : Nat) : RateLimiter :=
  { tokens := (o.maxRequests : ℚ), lastRefill := now, maxTokens := o.maxRequests,
    refillRate := (o.maxRequests : ℚ) / (o.windowMs : ℚ) }

/-- Model of `RateLimiter.refill`. -/
def RateLimiter.refill (rl : RateLimiter) (now : Nat) : RateLimiter :=
  let timePassed : ℚ := (now : ℚ) - (rl.lastRefill : ℚ)
  { rl with tokens := min (rl.maxTokens : ℚ) (rl.tokens + timePassed * rl.refillRate),
            lastRefill := now }

/-- Model of `RateLimiter.acquire`: refill, then take one token if at least one is
available. -/
def RateLimiter.acquire (rl : RateLimiter) (now : Nat) : Bool × RateLimiter :=
  let r := rl.refill now
  if 1 ≤ r.tokens then (true, { r with tokens := r.tokens - 1 })
  else (false, r)

/-- Model of `RateLimiter.getRemainingTime`: `Math.ceil((1 - tokens) / refillRate)`. -/
def RateLimiter.getRemainingTime (rl : RateLimiter) : Int :=
  if 1 ≤ rl.tokens then 0 else ⌈(1 - rl.tokens) / rl.refillRate⌉

/-- Model of `RetryOptions` from `types.ts`. -/
structure RetryOptions where
  maxAttempts : Nat
  baseDelay : Nat
  maxDelay : Nat
  backoffFactor : Nat
deriving DecidableEq, Repr

/-- Model of `EmailServiceOptions` from `types.ts`. -/
structure EmailServiceOptions where
  retry : RetryOptions
  rateLimit : RateLimitOptions
  circuitBreaker : CircuitBreakerOptions
  enableLogging : Bool
deriving DecidableEq, Repr

/-- The `EmailStatus.status` union
(`'pending' | 'sending' | 'sent' | 'failed' | 'queued'`). -/
inductive StatusKind where
  | pending
  | sending
  | sent
  | failed
  | queued
deriving DecidableEq, Repr

/-- Model of `EmailStatus` from `types.ts`; optional fields are `Option`s. -/
structure EmailStatus where
  messageId : String
  recipient : String
  subject : String
  status : StatusKind
  attempts : Nat
  lastAttempt : Option Nat
  provider : Option String
  error : Option String
  created : Nat
deriving DecidableEq, Repr

/-- Model of `EmailMessage` from `types.ts`. -/
structure EmailMessage where
  id : String
  /-- the `to` field (a reserved word in Lean) -/
  toAddr : String
  subject : String
  body : String
  priority : Option String
  timestamp : Nat
deriving DecidableEq, Repr

/-- Model of `EmailResult` from `types.ts`. -/
structure EmailResult where
  success : Bool
  messageId : Option String
  error : Option String
  provider : String
  timestamp : Nat
deriving DecidableEq, Repr

/-- An `EmailProvider`: its name plus its external behaviour, giving for each
invocation index the promise outcome of `sendEmail` (`Except.error e` is a
rejection whose `Error` carries message `e`). -/
structure Provider where
  name : String
  behavior : Nat → Except String EmailResult

/-- The mutable state of `EmailService`: status ledger, idempotency set,
deferred queue, per-provider breakers and invocation counts, rate limiter,
and the explicit clock (`Date.now()`). -/
structure ServiceState where
  statuses : String → Option EmailStatus
  sentEmails : List String
  queue : List EmailMessage
  breakers : String → Option CircuitBreaker
  calls : String → Nat
  limiter : RateLimiter
  now : Nat

/-- The `EmailService` constructor: breakers installed for each provider name,
fresh rate limiter, empty bookkeeping. -/
def initState (providers : List Provider) (opts : EmailServiceOptions) (now : Nat) :
    ServiceState :=
  { statuses := fun _ => none
    sentEmails := []
    queue := []
    breakers := fun nm => if providers.any (fun p => p.name = nm) then
        some CircuitBreaker.init else none
    calls := fun _ => 0
    limiter := RateLimiter.init opts.rateLimit now
    now := now }

/-- Model of `EmailService.updateStatus` (a `Map.set`). -/
def updateStatus (id : String) (s : EmailStatus) (st : ServiceState) : ServiceState :=
  { st with statuses := fun x => if x = id then some s else st.statuses x }

/-- Model of `EmailService.incrementAttemptCount`: bump only when a status exists. -/
def incrementAttemptCount (id : String) (st : ServiceState) : ServiceState :=
  match st.statuses id with
  | some s => updateStatus id { s with attempts := s.attempts + 1 } st
  | none => st

/-- Store an updated breaker under a provider name. -/
def setBreaker (nm : String) (cb : CircuitBreaker) (st : ServiceState) : ServiceState :=
  { st with breakers := fun x => if x = nm then some cb else st.breakers x }

/-- Record one more actual invocation of the named provider. -/
def bumpCalls (nm : String) (st : ServiceState) : ServiceState :=
  { st with calls := fun x => if x = nm then st.calls x + 1 else st.calls x }

/-- Model of `EmailService.addToQueue` up to the point where control returns to the
caller: append to the FIFO tail and set a fresh `queued` status
(`attempts: 0`).  The background drain (`processQueue`) is a concurrent task
outside this sequential model. -/
def addToQueue (msg : EmailMessage) (st : ServiceState) : ServiceState :=
  let st1 := { st with queue := st.queue ++ [msg] }
  updateStatus msg.id
    { messageId := msg.id, recipient := msg.toAddr, subject := msg.subject,
      status := .queued, attempts := 0, lastAttempt := none, provider := none,
      error := none, created := st1.now } st1

/-- Result of one `sendWithRetry` run: the outcome (or thrown error), the
final state and breaker, the backoff waits performed (in order), the number
of tries consumed, and the errors of the failed tries (in order). -/
structure RetryOut where
  res : Except String EmailResult
  st : ServiceState
  cb : CircuitBreaker
  delays : List Nat
  used : Nat
  errs : List String

/-- Model of `EmailService.sendWithRetry`, unrolled on the remaining attempt budget.
`fuel` is `maxAttempts - attempt` on loop entry and `aIdx` the 0-based index
of the try about to run, so `fuel = 0` is the fallthrough
`throw new Error('Max attempts ... exceeded')` and `fuel = 1` means the try
about to run is the final allowed one.  Each try increments the message's
attempt counter, then runs the provider call through the breaker; on failure
that is not the final try it waits
`min(baseDelay * backoffFactor^(attempt-1), maxDelay)` (which advances the
clock) and retries. -/
def sendWithRetryAux (ro : RetryOptions) (co : CircuitBreakerOptions)
    (msgId pname : String) (beh : Nat → Except String EmailResult) :
    Nat → Nat → ServiceState → CircuitBreaker → RetryOut
  | 0, _, st, cb =>
    ⟨.error ("Max attempts (" ++ toString ro.maxAttempts ++ ") exceeded"), st, cb, [], 0, []⟩
  | fuel + 1, aIdx, st, cb =>
    let st1 := incrementAttemptCount msgId st
    let step := executeStep co cb st1.now (beh (st1.calls pname))
    let st2 := setBreaker pname step.2.1 (if step.2.2 then bumpCalls pname st1 else st1)
    match step.1 with
    | .ok result => ⟨.ok result, st2, step.2.1, [], 1, []⟩
    | .error e =>
      if fuel = 0 then ⟨.error e, st2, step.2.1, [], 1, [e]⟩
      else
        let d := min (ro.baseDelay * ro.backoffFactor ^ aIdx) ro.maxDelay
        let rest := sendWithRetryAux ro co msgId pname beh fuel (aIdx + 1)
          { st2 with now := st2.now + d } step.2.1
        ⟨rest.res, rest.st, rest.cb, d :: rest.delays, rest.used + 1, e :: rest.errs⟩

/-- Result of `sendWithRetryAndFallback`: the outcome, the final state, and
the errors of all failed tries across providers (in order). -/
structure FallbackOut where
  result : EmailResult
  st : ServiceState
  errs : List String

/-- Model of `lastError?.message || 'All providers failed'`: JS `||` treats the empty
message as falsy. -/
def lastErrorText : Option String → String
  | some m => if m = "" then "All providers failed" else m
  | none => "All providers failed"

/-- Model of `EmailService.sendWithRetryAndFallback`: providers in priority order, a
provider without a breaker is skipped (`if (!circuitBreaker) continue`), a
successful retry run returns immediately, otherwise the thrown error becomes
`lastError` and the next provider is tried. -/
def sendFallbackAux (ro : RetryOptions) (co : CircuitBreakerOptions) (msg : EmailMessage) :
    List Provider → Option String → ServiceState → FallbackOut
  | [], lastErr, st =>
    ⟨{ success := false, messageId := none, error := some (lastErrorText lastErr),
       provider := "none", timestamp := st.now }, st, []⟩
  | p :: rest, lastErr, st =>
    match st.breakers p.name with
    | none => sendFallbackAux ro co msg rest lastErr st
    | some cb =>
      let r := sendWithRetryAux ro co msg.id p.name p.behavior ro.maxAttempts 0 st cb
      match r.res with
      | .ok result => ⟨result, r.st, r.errs⟩
      | .error e =>
        let out := sendFallbackAux ro co msg rest (some e) r.st
        ⟨out.result, out.st, r.errs ++ out.errs⟩

/-- Model of `providers.every(p => breaker(p) && breaker(p).getState() === 'open')`. -/
def allBreakersOpen (providers : List Provider) (st : ServiceState) : Bool :=
  providers.all fun p =>
    match st.breakers p.name with
    | some cb => cb.state = .opened
    | none => false

/-- Result of `EmailService.sendEmail`: the returned `EmailResult`, the state
after the call, and (instrumentation) the errors of all failed delivery
tries in order. -/
structure SendOut where
  result : EmailResult
  st : ServiceState
  errs : List String

/-- Model of `EmailService.sendEmail` after the idempotency short-circuit:
all-breakers-open check (enqueue and return), admission check (enqueue and
return), else mark `sending`, run retry-and-fallback, and record `sent` or
`failed`.  The JS `x || y` reads on `attempts`/`created` (falsy `0` picks
`y`) are modelled exactly. -/
def sendEmailCore (providers : List Provider) (opts : EmailServiceOptions)
    (st : ServiceState) (msg : EmailMessage) : SendOut :=
  if allBreakersOpen providers st then
    let st1 := addToQueue msg st
    ⟨{ success := false, messageId := none,
       error := some "All providers temporarily unavailable. Email queued for retry.",
       provider := "queue", timestamp := st1.now }, st1, []⟩
  else
    let a := RateLimiter.acquire st.limiter st.now
    let st1 := { st with limiter := a.2 }
    if a.1 then
      let st2 := updateStatus msg.id
        { messageId := msg.id, recipient := msg.toAddr, subject := msg.subject,
          status := .sending, attempts := 0, lastAttempt := none, provider := none,
          error := none, created := st1.now } st1
      let fb := sendFallbackAux opts.retry opts.circuitBreaker msg providers none st2
      let prev := fb.st.statuses msg.id
      let prevAttempts := match prev with | some s => s.attempts | none => 0
      let prevCreated := match prev with
        | some s => if s.created = 0 then fb.st.now else s.created
        | none => fb.st.now
      if fb.result.success then
        let st3 := { fb.st with sentEmails := msg.id :: fb.st.sentEmails }
        let st4 := updateStatus msg.id
          { messageId := msg.id, recipient := msg.toAddr, subject := msg.subject,
            status := .sent, attempts := prevAttempts, lastAttempt := some st3.now,
            provider := some fb.result.provider, error := none, created := prevCreated } st3
        ⟨fb.result, st4, fb.errs⟩
      else
        let st4 := updateStatus msg.id
          { messageId := msg.id, recipient := msg.toAddr, subject := msg.subject,
            status := .failed, attempts := prevAttempts, lastAttempt := some fb.st.now,
            provider := none, error := fb.result.error, created := prevCreated } fb.st
        ⟨fb.result, st4, fb.errs⟩
    else
      let wait := RateLimiter.getRemainingTime st1.limiter
      let st2 := addToQueue msg st1
      ⟨{ success := false, messageId := none,
         error := some ("Rate limit exceeded. Queued for processing in " ++
           toString wait ++ "ms"),
         provider := "queue", timestamp := st2.now }, st2, []⟩

/-- Model of `EmailService.sendEmail`: the idempotency short-circuit (identifier in
`sentEmails` with a recorded `sent` status replays the recorded success,
modelling the JS `status.provider || 'unknown'` and
`status.lastAttempt || Date.now()` falsy fallbacks exactly), then the core
path. -/
def sendEmail (providers : List Provider) (opts : EmailServiceOptions)
    (st : ServiceState) (msg : EmailMessage) : SendOut :=
  match (if st.sentEmails.contains msg.id then st.statuses msg.id else none) with
  | some s =>
    if s.status = .sent then
      ⟨{ success := true, messageId := some msg.id,
         provider := match s.provider with
           | some p => if p = "" then "unknown" else p
           | none => "unknown",
         timestamp := match s.lastAttempt with
           | some t => if t = 0 then st.now else t
           | none => st.now,
         error := none }, st, []⟩
    else sendEmailCore providers opts st msg
  | none => sendEmailCore providers opts st msg

/-- A concrete resolved provider result, used by witnesses. -/
def okResult (p : String) (t : Nat) : EmailResult :=
  { success := true, messageId := some "rcpt", error := none, provider := p, timestamp := t }

/-- A concrete message "m", used by witnesses. -/
def mkMsg (t : Nat) : EmailMessage :=
  { id := "m", toAddr := "r", subject := "s", body := "b", priority := none, timestamp := t }

/-- A concrete status record for "m", used by witnesses. -/
def mkStatus (k : StatusKind) (att : Nat) (la : Option Nat) (pr er : Option String)
    (cr : Nat) : EmailStatus :=
  { messageId := "m", recipient := "r", subject := "s", status := k, attempts := att,
    lastAttempt := la, provider := pr, error := er, created := cr }

/-- A concrete service state holding exactly one status for "m", used by
witnesses. -/
def mkState (s : EmailStatus) (sent : List String) (now : Nat) : ServiceState :=
  { statuses := fun x => if x = "m" then some s else none, sentEmails := sent,
    queue := [], breakers := fun _ => none, calls := fun _ => 0,
    limiter := RateLimiter.init ⟨5, 1000⟩ 0, now := now }

/-! ## Helper lemmas -/

/-- The `onFailure` step leaves the same failure history in every state branch:
the just-recorded failure appended, then pruned. -/
theorem onFailure_history (o : CircuitBreakerOptions) (cb : CircuitBreaker) (now : Nat) :
    (onFailure o cb now).failureHistory =
      cleanupHistory o (cb.failureHistory ++ [now]) now := by
  unfold onFailure
  dsimp only
  split
  · rfl
  · split <;> rfl

/-- On a sorted list that still holds at least one entry satisfying an
upward-closed predicate, `pruneAt` keeps only satisfying entries. -/
theorem pruneAt_sorted (p : Nat → Bool)
    (hmono : ∀ a b : Nat, a ≤ b → p a = true → p b = true) :
    ∀ h : List Nat, List.Pairwise (· ≤ ·) h →
      (∃ x ∈ h, p x = true) →
      ∀ t ∈ pruneAt p h, p t = true
  | [], _, hex, _, _ => by simp at hex
  | a :: tl, hs, hex, t, ht => by
    have hstl : List.Pairwise (· ≤ ·) tl := hs.tail
    by_cases ha : p a = true
    · -- head already satisfies: nothing is dropped, sortedness covers the tail
      have hcl : pruneAt p (a :: tl) = a :: tl := by
        unfold pruneAt
        rw [List.findIdx?_cons]
        simp [ha]
      rw [hcl] at ht
      rcases List.mem_cons.1 ht with rfl | htl
      · exact ha
      · exact hmono a t ((List.pairwise_cons.1 hs).1 t htl) ha
    · -- stale head: whatever survives also survives pruning the tail
      have hex' : ∃ x ∈ tl, p x = true := by
        rcases hex with ⟨x, hx, hxc⟩
        rcases List.mem_cons.1 hx with rfl | hxtl
        · exact absurd hxc ha
        · exact ⟨x, hxtl, hxc⟩
      have ih := pruneAt_sorted p hmono tl hstl hex'
      have hmem : t ∈ pruneAt p tl := by
        unfold pruneAt at ht ⊢
        rw [List.findIdx?_cons] at ht
        simp only [ha, Bool.false_eq_true, if_false, List.findIdx?_succ] at ht
        rcases hj : tl.findIdx? p with _ | j
        · rcases hex' with ⟨x, hxtl, hxc⟩
          have := List.findIdx?_eq_none_iff.1 hj x hxtl
          simp [hxc] at this
        · rw [hj] at ht
          simp only [Option.map_some'] at ht
          rcases Nat.eq_zero_or_pos j with rfl | hjpos
          · simpa using ht
          · simp only [if_pos hjpos]
            simpa [Nat.succ_le_of_lt hjpos, List.drop_succ_cons] using ht
      exact ih t hmem

/-- On a sorted history that still holds at least one entry at or past the
cutoff, `cleanupHistory` keeps only entries at or past the cutoff. -/
theorem cleanupHistory_sorted (o : CircuitBreakerOptions) (now : Nat)
    (h : List Nat) (hs : List.Pairwise (· ≤ ·) h)
    (hex : ∃ x ∈ h, (now : Int) - (o.monitoringWindow : Int) ≤ (x : Int)) :
    ∀ t ∈ cleanupHistory o h now, (now : Int) - (o.monitoringWindow : Int) ≤ (t : Int) := by
  intro t ht
  have := pruneAt_sorted
    (fun t : Nat => decide ((now : Int) - (o.monitoringWindow : Int) ≤ (t : Int)))
    (fun a b hab hpa => by
      simp only [decide_eq_true_eq] at hpa ⊢
      omega)
    h hs (by rcases hex with ⟨x, hx, hxc⟩; exact ⟨x, hx, by simpa using hxc⟩)
    t (by simpa [cleanupHistory] using ht)
  simpa using this

/-! ## Claims about the circuit breaker -/

/-- C3.  From `closed`, a failure that brings the count of in-window recorded
failures up to `failureThreshold` opens the breaker; while `open` with the
elapsed time since the last failure not exceeding `resetTimeout`, `execute`
raises the distinct `Circuit breaker is OPEN` signal without invoking the
operation (breaker state untouched). -/
theorem claim_C3_breaker_trip :
    (∀ (o : CircuitBreakerOptions) (cb : CircuitBreaker) (now : Nat),
        cb.state = .closed →
        o.failureThreshold ≤ recentCount o (onFailure o cb now).failureHistory now →
        (onFailure o cb now).state = .opened) ∧
    (∀ (o : CircuitBreakerOptions) (cb : CircuitBreaker) (now : Nat)
        (op : Except String EmailResult),
        cb.state = .opened →
        (now : Int) - (cb.lastFailureTime : Int) ≤ (o.resetTimeout : Int) →
        executeStep o cb now op = (.error "Circuit breaker is OPEN", cb, false)) := by
  constructor
  · intro o cb now hcl hth
    rw [onFailure_history] at hth
    unfold onFailure
    dsimp only
    rw [if_neg (by simp [hcl]), if_pos hth]
  · intro o cb now op hop helapsed
    have hng : ¬ ((o.resetTimeout : Int) < (now : Int) - (cb.lastFailureTime : Int)) := by
      omega
    simp [executeStep, gateCheck, hop, hng]

/-- Witness for C3 at concrete inputs: threshold 3, window 5000; a third
in-window failure opens the breaker, and an open breaker 100ms after its
last failure (resetTimeout 1000) rejects without invoking. -/
theorem claim_C3_breaker_trip_witness :
    (onFailure ⟨3, 1000, 5000⟩
        { failures := 2, lastFailureTime := 50, state := .closed, successCount := 0,
          failureHistory := [10, 50] } 60).state = .opened ∧
    executeStep ⟨3, 1000, 5000⟩
        { failures := 3, lastFailureTime := 100, state := .opened, successCount := 0,
          failureHistory := [10, 50, 100] } 200 (Except.ok (okResult "A" 200)) =
      (.error "Circuit breaker is OPEN",
        { failures := 3, lastFailureTime := 100, state := .opened, successCount := 0,
          failureHistory := [10, 50, 100] }, false) := by
  constructor
  · exact claim_C3_breaker_trip.1 ⟨3, 1000, 5000⟩ _ 60 rfl (by with_unfolding_all decide)
  · exact claim_C3_breaker_trip.2 ⟨3, 1000, 5000⟩ _ 200 _ rfl (by with_unfolding_all decide)

/-- C4.  An open breaker whose reset timeout has elapsed lets the next call
through after moving to `half-open` with the probe counter cleared; from
`half-open`, two consecutive successful invocations close the breaker, and a
single failed invocation reopens it. -/
theorem claim_C4_breaker_recovery :
    (∀ (o : CircuitBreakerOptions) (cb : CircuitBreaker) (now : Nat)
        (op : Except String EmailResult),
        cb.state = .opened →
        (o.resetTimeout : Int) < (now : Int) - (cb.lastFailureTime : Int) →
        gateCheck o cb now = ({ cb with state := .halfOpen, successCount := 0 }, true) ∧
        (executeStep o cb now op).2.2 = true) ∧
    (∀ (o : CircuitBreakerOptions) (cb : CircuitBreaker) (now now' : Nat)
        (a a' : EmailResult),
        cb.state = .halfOpen → cb.successCount = 0 →
        (executeStep o cb now (Except.ok a)).2.1.state = .halfOpen ∧
        (executeStep o (executeStep o cb now (Except.ok a)).2.1 now'
            (Except.ok a')).2.1.state = .closed) ∧
    (∀ (o : CircuitBreakerOptions) (cb : CircuitBreaker) (now : Nat) (e : String),
        cb.state = .halfOpen →
        (executeStep o cb now (Except.error e : Except String EmailResult)).2.1.state =
          .opened) := by
  refine ⟨?_, ?_, ?_⟩
  · intro o cb now op hop helapsed
    have hg : gateCheck o cb now = ({ cb with state := .halfOpen, successCount := 0 }, true) := by
      unfold gateCheck
      rw [if_pos hop, if_pos helapsed]
    refine ⟨hg, ?_⟩
    unfold executeStep
    rw [hg]
    cases op <;> rfl
  · intro o cb now now' a a' hho hsc
    have h1 : (executeStep o cb now (Except.ok a)).2.1 =
        { cb with failures := 0,
                  failureHistory := cleanupHistory o cb.failureHistory now,
                  successCount := 1 } := by
      simp [executeStep, gateCheck, onSuccess, hho, hsc]
    constructor
    · rw [h1]
      simpa using hho
    · rw [h1]
      simp [executeStep, gateCheck, onSuccess, hho]
  · intro o cb now e hho
    simp [executeStep, gateCheck, onFailure, hho]

/-- Witness for C4 at concrete inputs: reset timeout 1000 elapsed at 1200,
then a half-open probe sequence (success, success → closed; failure →
reopened). -/
theorem claim_C4_breaker_recovery_witness :
    (gateCheck ⟨3, 1000, 5000⟩
        { failures := 3, lastFailureTime := 100, state := .opened, successCount := 7,
          failureHistory := [100] } 1200).1.state = .halfOpen ∧
    (executeStep ⟨3, 1000, 5000⟩
        { failures := 0, lastFailureTime := 100, state := .halfOpen, successCount := 0,
          failureHistory := [] } 1300 (Except.ok (okResult "A" 1300))).2.1.state = .halfOpen ∧
    (executeStep ⟨3, 1000, 5000⟩
        (executeStep ⟨3, 1000, 5000⟩
          { failures := 0, lastFailureTime := 100, state := .halfOpen, successCount := 0,
            failureHistory := [] } 1300 (Except.ok (okResult "A" 1300))).2.1
        1400 (Except.ok (okResult "A" 1400))).2.1.state = .closed ∧
    (executeStep ⟨3, 1000, 5000⟩
        { failures := 0, lastFailureTime := 100, state := .halfOpen, successCount := 0,
          failureHistory := [] } 1300
        (Except.error "boom" : Except String EmailResult)).2.1.state = .opened := by
  refine ⟨?_, ?_, ?_, ?_⟩
  · rw [(claim_C4_breaker_recovery.1 ⟨3, 1000, 5000⟩ _ 1200 (Except.ok (okResult "A" 1200))
      rfl (by with_unfolding_all decide)).1]
  · exact (claim_C4_breaker_recovery.2.1 ⟨3, 1000, 5000⟩ _ 1300 1400
      (okResult "A" 1300) (okResult "A" 1400) rfl rfl).1
  · exact (claim_C4_breaker_recovery.2.1 ⟨3, 1000, 5000⟩ _ 1300 1400
      (okResult "A" 1300) (okResult "A" 1400) rfl rfl).2
  · exact claim_C4_breaker_recovery.2.2 ⟨3, 1000, 5000⟩ _ 1300 "boom" rfl

/-- C9, counterexample.  After a *successful* invocation the failure history
can retain entries older than the monitoring window: `cleanupHistory` only
splices when `findIndex` returns a positive index, so when every entry is
stale (`findIndex` misses, returning `-1`) nothing is pruned.  Breaker with
window 5000: one failure at time 0, then a success at time 10000 — the stale
entry 0 survives. -/
theorem claim_C9_counterexample :
    ¬ (∀ t ∈ ((executeStep ⟨3, 1000, 5000⟩
          (executeStep ⟨3, 1000, 5000⟩ CircuitBreaker.init 0
            (Except.error "boom" : Except String EmailResult)).2.1
          10000 (Except.ok (okResult "A" 10000))).2.1.failureHistory),
        (10000 : Int) - (t : Int) ≤ ((5000 : Nat) : Int)) := by
  intro hall
  have h0 := hall 0 (by with_unfolding_all decide)
  omega

/-- C9, amended.  After every *failed* invocation the failure history contains
no entry older than the monitoring window, provided the clock is monotone
(the recorded history is sorted and not in the future); after a successful
invocation stale entries are only removed when at least one entry inside the
window remains, so the bound is guaranteed on the failure path. -/
theorem claim_C9_prune_amended (o : CircuitBreakerOptions) (cb : CircuitBreaker) (now : Nat)
    (hs : List.Pairwise (· ≤ ·) cb.failureHistory)
    (hle : ∀ t ∈ cb.failureHistory, t ≤ now) :
    ∀ t ∈ (onFailure o cb now).failureHistory,
      (now : Int) - (t : Int) ≤ (o.monitoringWindow : Int) := by
  intro t ht
  rw [onFailure_history] at ht
  have hpw : List.Pairwise (· ≤ ·) (cb.failureHistory ++ [now]) := by
    rw [List.pairwise_append]
    exact ⟨hs, List.pairwise_singleton _ _, fun a ha b hb => by
      rcases List.mem_singleton.1 hb with rfl
      exact hle a ha⟩
  have hex : ∃ x ∈ cb.failureHistory ++ [now],
      (now : Int) - (o.monitoringWindow : Int) ≤ (x : Int) := by
    refine ⟨now, by simp, ?_⟩
    have := Int.ofNat_nonneg o.monitoringWindow
    omega
  have := cleanupHistory_sorted o now (cb.failureHistory ++ [now]) hpw hex t ht
  omega

/-- Witness for C9 amended, instantiated at the surviving entry 4000: one
in-window failure at 4000 followed by a failure at 6000 with window 5000
keeps the entry 4000, and it is within the window. -/
theorem claim_C9_prune_amended_witness :
    (6000 : Int) - ((4000 : Nat) : Int) ≤ ((5000 : Nat) : Int) :=
  claim_C9_prune_amended ⟨3, 1000, 5000⟩
    { failures := 1, lastFailureTime := 4000, state := .closed, successCount := 0,
      failureHistory := [4000] } 6000 (by simp) (by simp) 4000
    (by with_unfolding_all decide)

/-! ## Claim about the rate limiter -/

/-- C5.  `acquire` first refills — quota grows by elapsed time times
`capacity / windowDuration`, capped at `capacity` — and then either takes
exactly one token (admitted) or leaves the freshly refilled quota untouched
(denied); the refill sticks even on denial. -/
theorem claim_C5_acquire_refill (rl : RateLimiter) (now : Nat) (w : ℚ)
    (hw : rl.refillRate = (rl.maxTokens : ℚ) / w) :
    (1 ≤ min (rl.maxTokens : ℚ)
        (rl.tokens + ((now : ℚ) - (rl.lastRefill : ℚ)) * ((rl.maxTokens : ℚ) / w)) →
      RateLimiter.acquire rl now =
        (true, { rl with
          tokens := min (rl.maxTokens : ℚ)
            (rl.tokens + ((now : ℚ) - (rl.lastRefill : ℚ)) * ((rl.maxTokens : ℚ) / w)) - 1,
          lastRefill := now })) ∧
    (¬ 1 ≤ min (rl.maxTokens : ℚ)
        (rl.tokens + ((now : ℚ) - (rl.lastRefill : ℚ)) * ((rl.maxTokens : ℚ) / w)) →
      RateLimiter.acquire rl now =
        (false, { rl with
          tokens := min (rl.maxTokens : ℚ)
            (rl.tokens + ((now : ℚ) - (rl.lastRefill : ℚ)) * ((rl.maxTokens : ℚ) / w)),
          lastRefill := now })) := by
  rw [← hw]
  unfold RateLimiter.acquire RateLimiter.refill
  constructor
  · intro h
    rw [if_pos h]
  · intro h
    rw [if_neg h]

/-- Witness for C5: capacity 2 over a 10ms window, bucket constructed at 0 and
acquired at 5 — admitted, one token removed from the (capped) refilled quota. -/
theorem claim_C5_acquire_refill_witness :
    RateLimiter.acquire (RateLimiter.init ⟨2, 10⟩ 0) 5 =
      (true, { tokens := 1, lastRefill := 5, maxTokens := 2, refillRate := 1 / 5 }) := by
  have h := (claim_C5_acquire_refill (RateLimiter.init ⟨2, 10⟩ 0) 5 10
    (by with_unfolding_all decide)).1 (by with_unfolding_all decide)
  rw [h]
  with_unfolding_all decide

/-! ## Frame lemmas for the service state -/

theorem updateStatus_calls (id : String) (s : EmailStatus) (st : ServiceState) :
    (updateStatus id s st).calls = st.calls := rfl

theorem updateStatus_breakers (id : String) (s : EmailStatus) (st : ServiceState) :
    (updateStatus id s st).breakers = st.breakers := rfl

theorem incrementAttemptCount_calls (id : String) (st : ServiceState) :
    (incrementAttemptCount id st).calls = st.calls := by
  unfold incrementAttemptCount
  split <;> rfl

theorem incrementAttemptCount_now (id : String) (st : ServiceState) :
    (incrementAttemptCount id st).now = st.now := by
  unfold incrementAttemptCount
  split <;> rfl

theorem setBreaker_statuses (nm : String) (cb : CircuitBreaker) (st : ServiceState) :
    (setBreaker nm cb st).statuses = st.statuses := rfl

theorem bumpCalls_statuses (nm : String) (st : ServiceState) :
    (bumpCalls nm st).statuses = st.statuses := rfl

theorem addToQueue_statuses (msg : EmailMessage) (st : ServiceState) (id : String) :
    (addToQueue msg st).statuses id =
      if id = msg.id then
        some { messageId := msg.id, recipient := msg.toAddr, subject := msg.subject,
               status := .queued, attempts := 0, lastAttempt := none, provider := none,
               error := none, created := st.now }
      else st.statuses id := rfl

/-! ## Claim C1: idempotent replay -/

/-- C1.  A message whose identifier is recorded as successfully sent (in the
idempotency set with a `sent` status carrying its delivering provider and
send timestamp) is replayed: `sendEmail` returns a success naming that
provider and timestamp, performs no provider invocation, and leaves the
whole service state — the attempt counter included — untouched. -/
theorem claim_C1_idempotent_replay (providers : List Provider)
    (opts : EmailServiceOptions) (st : ServiceState) (msg : EmailMessage)
    (s : EmailStatus) (p : String) (t : Nat)
    (hmem : st.sentEmails.contains msg.id = true)
    (hst : st.statuses msg.id = some s) (hsent : s.status = .sent)
    (hp : s.provider = some p) (hpne : p ≠ "")
    (ht : s.lastAttempt = some t) (htne : t ≠ 0) :
    sendEmail providers opts st msg =
      ⟨{ success := true, messageId := some msg.id, error := none, provider := p,
         timestamp := t }, st, []⟩ := by
  unfold sendEmail
  rw [if_pos hmem, hst]
  dsimp only
  rw [if_pos hsent, hp, ht]
  simp [hpne, htne]

/-- Witness for C1: a state holding a recorded success for "m" (provider "A",
timestamp 500) replays it unchanged. -/
theorem claim_C1_idempotent_replay_witness :
    sendEmail [] ⟨⟨3, 100, 1000, 2⟩, ⟨5, 1000⟩, ⟨3, 1000, 5000⟩, false⟩
      (mkState (mkStatus .sent 1 (some 500) (some "A") none 400) ["m"] 900) (mkMsg 900) =
      ⟨{ success := true, messageId := some "m", error := none, provider := "A",
         timestamp := 500 },
       mkState (mkStatus .sent 1 (some 500) (some "A") none 400) ["m"] 900, []⟩ :=
  claim_C1_idempotent_replay _ _ _ _
    (mkStatus .sent 1 (some 500) (some "A") none 400) "A" 500
    (by decide) (by decide) rfl rfl (by decide) rfl (by decide)

/-! ## Claim C6: exponential backoff -/

/-- The shape of one `sendWithRetry` run: every recorded wait is
`min(baseDelay * backoffFactor^(attempt-1), maxDelay)` for its (0-based)
attempt index, there is one fewer wait than tries spent, and the try budget
is respected. -/
theorem sendWithRetryAux_spec (ro : RetryOptions) (co : CircuitBreakerOptions)
    (msgId pname : String) (beh : Nat → Except String EmailResult) :
    ∀ (fuel aIdx : Nat) (st : ServiceState) (cb : CircuitBreaker), 1 ≤ fuel →
      (sendWithRetryAux ro co msgId pname beh fuel aIdx st cb).delays =
        (List.range' aIdx ((sendWithRetryAux ro co msgId pname beh fuel aIdx st cb).used - 1)).map
          (fun i => min (ro.baseDelay * ro.backoffFactor ^ i) ro.maxDelay) ∧
      1 ≤ (sendWithRetryAux ro co msgId pname beh fuel aIdx st cb).used ∧
      (sendWithRetryAux ro co msgId pname beh fuel aIdx st cb).used ≤ fuel := by
  intro fuel
  induction fuel with
  | zero => intro aIdx st cb hf; exact absurd hf (by omega)
  | succ fuel ih =>
    intro aIdx st cb _
    unfold sendWithRetryAux
    dsimp only
    set st1 := incrementAttemptCount msgId st with hst1
    set step := executeStep co cb st1.now (beh (st1.calls pname)) with hstep
    set st2 := setBreaker pname step.2.1
      (if step.2.2 = true then bumpCalls pname st1 else st1) with hst2
    split
    · simp
    · split
      · simp
      · rename_i hfuel
        set d := min (ro.baseDelay * ro.backoffFactor ^ aIdx) ro.maxDelay with hdd
        obtain ⟨hd, hu1, hu2⟩ := ih (aIdx + 1) { st2 with now := st2.now + d } step.2.1
          (by omega)
        dsimp only
        refine ⟨?_, by omega, by omega⟩
        rw [hd]
        simp only [Nat.add_sub_cancel]
        have hused : (sendWithRetryAux ro co msgId pname beh fuel (aIdx + 1)
            { st2 with now := st2.now + d } step.2.1).used =
            ((sendWithRetryAux ro co msgId pname beh fuel (aIdx + 1)
              { st2 with now := st2.now + d } step.2.1).used - 1) + 1 := by omega
        rw [hused, List.range'_succ]
        simp

/-- C6.  In one provider's retry run, the wait recorded after the (1-based)
`attempt`-th failed try equals
`min(baseDelay * backoffFactor^(attempt-1), maxDelay)`, and no wait follows
the final allowed try: there is exactly one fewer wait than tries spent,
within the `maxAttempts` budget. -/
theorem claim_C6_backoff (ro : RetryOptions) (co : CircuitBreakerOptions)
    (msgId pname : String) (beh : Nat → Except String EmailResult)
    (st : ServiceState) (cb : CircuitBreaker) (hmax : 1 ≤ ro.maxAttempts) :
    (∀ i (hi : i < (sendWithRetryAux ro co msgId pname beh ro.maxAttempts 0 st cb).delays.length),
      (sendWithRetryAux ro co msgId pname beh ro.maxAttempts 0 st cb).delays[i] =
        min (ro.baseDelay * ro.backoffFactor ^ i) ro.maxDelay) ∧
    (sendWithRetryAux ro co msgId pname beh ro.maxAttempts 0 st cb).delays.length + 1 =
      (sendWithRetryAux ro co msgId pname beh ro.maxAttempts 0 st cb).used ∧
    (sendWithRetryAux ro co msgId pname beh ro.maxAttempts 0 st cb).used ≤ ro.maxAttempts := by
  obtain ⟨hd, hu1, hu2⟩ :=
    sendWithRetryAux_spec ro co msgId pname beh ro.maxAttempts 0 st cb hmax
  have hlen : (sendWithRetryAux ro co msgId pname beh ro.maxAttempts 0 st cb).delays.length =
      (sendWithRetryAux ro co msgId pname beh ro.maxAttempts 0 st cb).used - 1 := by
    rw [hd]; simp
  refine ⟨?_, by omega, hu2⟩
  intro i hi
  simp only [hd]
  rw [List.getElem_map, List.getElem_range']
  simp

/-- Witness for C6: three allowed tries against an always-failing provider —
two waits, three tries spent, within budget. -/
theorem claim_C6_backoff_witness :
    (sendWithRetryAux ⟨3, 100, 150, 2⟩ ⟨10, 1000, 5000⟩ "m" "A" (fun _ => Except.error "x")
        3 0 (initState [] ⟨⟨3, 100, 150, 2⟩, ⟨5, 1000⟩, ⟨10, 1000, 5000⟩, false⟩ 0)
        CircuitBreaker.init).delays.length + 1 =
      (sendWithRetryAux ⟨3, 100, 150, 2⟩ ⟨10, 1000, 5000⟩ "m" "A" (fun _ => Except.error "x")
        3 0 (initState [] ⟨⟨3, 100, 150, 2⟩, ⟨5, 1000⟩, ⟨10, 1000, 5000⟩, false⟩ 0)
        CircuitBreaker.init).used ∧
    (sendWithRetryAux ⟨3, 100, 150, 2⟩ ⟨10, 1000, 5000⟩ "m" "A" (fun _ => Except.error "x")
        3 0 (initState [] ⟨⟨3, 100, 150, 2⟩, ⟨5, 1000⟩, ⟨10, 1000, 5000⟩, false⟩ 0)
        CircuitBreaker.init).used ≤ 3 :=
  (claim_C6_backoff ⟨3, 100, 150, 2⟩ ⟨10, 1000, 5000⟩ "m" "A" (fun _ => Except.error "x")
    (initState [] ⟨⟨3, 100, 150, 2⟩, ⟨5, 1000⟩, ⟨10, 1000, 5000⟩, false⟩ 0)
    CircuitBreaker.init (by decide)).2

/-! ## The attempt counter through one retry run -/

/-- A retry run bumps the message's recorded attempt counter by exactly the
number of tries it spends — one increment per try, before the try executes —
and touches no other status field. -/
theorem sendWithRetryAux_statuses (ro : RetryOptions) (co : CircuitBreakerOptions)
    (msgId pname : String) (beh : Nat → Except String EmailResult) :
    ∀ (fuel aIdx : Nat) (st : ServiceState) (cb : CircuitBreaker) (s : EmailStatus),
      st.statuses msgId = some s →
      (sendWithRetryAux ro co msgId pname beh fuel aIdx st cb).st.statuses msgId =
        some { s with attempts := s.attempts +
          (sendWithRetryAux ro co msgId pname beh fuel aIdx st cb).used } := by
  intro fuel
  induction fuel with
  | zero =>
    intro aIdx st cb s hs
    simpa [sendWithRetryAux] using hs
  | succ fuel ih =>
    intro aIdx st cb s hs
    unfold sendWithRetryAux
    dsimp only
    set st1 := incrementAttemptCount msgId st with hst1
    have hs1 : st1.statuses msgId = some { s with attempts := s.attempts + 1 } := by
      rw [hst1]
      unfold incrementAttemptCount updateStatus
      rw [hs]
      simp
    set step := executeStep co cb st1.now (beh (st1.calls pname)) with hstep
    set st2 := setBreaker pname step.2.1
      (if step.2.2 = true then bumpCalls pname st1 else st1) with hst2
    have hs2 : st2.statuses msgId = some { s with attempts := s.attempts + 1 } := by
      rw [hst2]
      rcases step.2.2 with _ | _ <;> simp [setBreaker, bumpCalls, hs1]
    split
    · simpa using hs2
    · split
      · simpa using hs2
      · set d := min (ro.baseDelay * ro.backoffFactor ^ aIdx) ro.maxDelay with hdd
        have hrec := ih (aIdx + 1) { st2 with now := st2.now + d } step.2.1
          { s with attempts := s.attempts + 1 } hs2
        dsimp only
        have harith : s.attempts + 1 +
            (sendWithRetryAux ro co msgId pname beh fuel (aIdx + 1)
              { st2 with now := st2.now + d } step.2.1).used =
            s.attempts + ((sendWithRetryAux ro co msgId pname beh fuel (aIdx + 1)
              { st2 with now := st2.now + d } step.2.1).used + 1) := by omega
        simpa [harith] using hrec

/-! ## Shared branch lemmas for the facade -/

/-- With any provider set, once the idempotency short-circuit does not fire,
`sendEmail` proceeds to the core dispatch path. -/
theorem sendEmail_eq_core (providers : List Provider) (opts : EmailServiceOptions)
    (st : ServiceState) (msg : EmailMessage)
    (h : ¬ (st.sentEmails.contains msg.id = true ∧
        ∃ s, st.statuses msg.id = some s ∧ s.status = .sent)) :
    sendEmail providers opts st msg = sendEmailCore providers opts st msg := by
  unfold sendEmail
  rcases hc : st.sentEmails.contains msg.id with _ | _
  · simp
  · rcases hs : st.statuses msg.id with _ | s
    · simp
    · have hns : ¬ s.status = .sent := fun hsent => h ⟨hc, s, hs, hsent⟩
      simp [hns]

/-! ## Claim C7: retry count (corrected) -/

theorem gateCheck_closed (o : CircuitBreakerOptions) (cb : CircuitBreaker) (now : Nat)
    (hcl : cb.state = .closed) : gateCheck o cb now = (cb, true) := by
  unfold gateCheck
  rw [if_neg (by simp [hcl])]

/-- A closed breaker lets a successful operation through. -/
theorem executeStep_closed_ok {α : Type} (o : CircuitBreakerOptions) (cb : CircuitBreaker)
    (now : Nat) (a : α) (hcl : cb.state = .closed) :
    executeStep o cb now (Except.ok a) = (.ok a, onSuccess o cb now, true) := by
  simp [executeStep, gateCheck_closed o cb now hcl]

/-- A closed breaker lets a failing operation through and re-raises its error. -/
theorem executeStep_closed_err {α : Type} (o : CircuitBreakerOptions) (cb : CircuitBreaker)
    (now : Nat) (e : String) (hcl : cb.state = .closed) :
    executeStep o cb now (Except.error e : Except String α) =
      (.error e, onFailure o cb now, true) := by
  simp [executeStep, gateCheck_closed o cb now hcl]

theorem pruneAt_length_le (p : Nat → Bool) (h : List Nat) :
    (pruneAt p h).length ≤ h.length := by
  unfold pruneAt
  rcases hf : h.findIdx? p with _ | i
  · exact le_rfl
  · show (if 0 < i then List.drop i h else h).length ≤ h.length
    by_cases hi : 0 < i
    · rw [if_pos hi]
      simp [List.length_drop]
    · rw [if_neg hi]

theorem recentCount_le (o : CircuitBreakerOptions) (h : List Nat) (now : Nat) :
    recentCount o h now ≤ h.length :=
  List.length_filter_le _ _

/-- A failure on a closed breaker whose history is still short keeps the
breaker closed (the in-window count cannot reach the threshold) and grows
the history by at most one entry. -/
theorem onFailure_closed_of_length (o : CircuitBreakerOptions) (cb : CircuitBreaker)
    (now : Nat) (hcl : cb.state = .closed)
    (hlen : cb.failureHistory.length + 1 < o.failureThreshold) :
    (onFailure o cb now).state = .closed ∧
    (onFailure o cb now).failureHistory.length ≤ cb.failureHistory.length + 1 := by
  have hlen2 : (cleanupHistory o (cb.failureHistory ++ [now]) now).length ≤
      cb.failureHistory.length + 1 := by
    have := pruneAt_length_le
      (fun t : Nat => decide ((now : Int) - (o.monitoringWindow : Int) ≤ (t : Int)))
      (cb.failureHistory ++ [now])
    simpa [cleanupHistory, List.length_append] using this
  have hrc : recentCount o (cleanupHistory o (cb.failureHistory ++ [now]) now) now <
      o.failureThreshold := by
    have := recentCount_le o (cleanupHistory o (cb.failureHistory ++ [now]) now) now
    omega
  constructor
  · unfold onFailure
    dsimp only
    rw [if_neg (by simp [hcl]), if_neg (by simpa using (by omega : ¬ (o.failureThreshold ≤
      recentCount o (cleanupHistory o (cb.failureHistory ++ [now]) now) now)))]
    simpa using hcl
  · rw [onFailure_history]
    exact hlen2

/-- A provider behaviour that rejects its first `k` invocations (with error
text `em n` on the `n`-th) and resolves `res0` from the `k`-th on. -/
def failKBeh (k : Nat) (em : Nat → String) (res0 : EmailResult) :
    Nat → Except String EmailResult :=
  fun n => if n < k then Except.error (em n) else Except.ok res0

/-- Running the retry loop against `failKBeh` with enough budget and a fresh
enough closed breaker: the run succeeds and spends exactly (failures left)
+ 1 tries — every try actually invokes the provider. -/
theorem sendWithRetryAux_failThenOk (ro : RetryOptions) (co : CircuitBreakerOptions)
    (msgId pname : String) (k : Nat) (em : Nat → String) (res0 : EmailResult) :
    ∀ (fuel aIdx : Nat) (st : ServiceState) (cb : CircuitBreaker),
      st.calls pname ≤ k →
      k - st.calls pname < fuel →
      cb.state = .closed →
      cb.failureHistory.length + (k - st.calls pname) < co.failureThreshold →
      (sendWithRetryAux ro co msgId pname (failKBeh k em res0) fuel aIdx st cb).res =
        Except.ok res0 ∧
      (sendWithRetryAux ro co msgId pname (failKBeh k em res0) fuel aIdx st cb).used =
        k - st.calls pname + 1 := by
  intro fuel
  induction fuel with
  | zero => intro aIdx st cb _ hkf _ _; exact absurd hkf (by omega)
  | succ fuel ih =>
    intro aIdx st cb hck hkf hcl hthr
    unfold sendWithRetryAux
    dsimp only
    set st1 := incrementAttemptCount msgId st with hst1
    have hc1 : st1.calls pname = st.calls pname := by
      rw [hst1, incrementAttemptCount_calls]
    set step := executeStep co cb st1.now (failKBeh k em res0 (st1.calls pname)) with hstepdef
    set st2 := setBreaker pname step.2.1
      (if step.2.2 = true then bumpCalls pname st1 else st1) with hst2
    by_cases hlt : st.calls pname < k
    · -- a failing invocation
      have hop : failKBeh k em res0 (st1.calls pname) =
          Except.error (em (st1.calls pname)) := by
        simp [failKBeh, hc1, hlt]
      have hstepval : step = (Except.error (em (st1.calls pname)),
          onFailure co cb st1.now, true) := by
        rw [hstepdef, hop, executeStep_closed_err co cb st1.now _ hcl]
      have hcalls2 : st2.calls pname = st.calls pname + 1 := by
        rw [hst2, hstepval]
        simp [setBreaker, bumpCalls, hc1]
      have hstate2 : step.2.1.state = .closed ∧
          step.2.1.failureHistory.length ≤ cb.failureHistory.length + 1 := by
        rw [hstepval]
        exact onFailure_closed_of_length co cb st1.now hcl (by omega)
      rw [hstepval]
      dsimp only
      have hf : ¬ (fuel = 0) := by omega
      rw [if_neg hf]
      dsimp only
      set d := min (ro.baseDelay * ro.backoffFactor ^ aIdx) ro.maxDelay with hdd
      have hOn := onFailure_closed_of_length co cb st1.now hcl (by omega)
      obtain ⟨hres, hused⟩ := ih (aIdx + 1) { st2 with now := st2.now + d }
        (onFailure co cb st1.now)
        (by show st2.calls pname ≤ k; omega)
        (by show k - st2.calls pname < fuel; omega)
        hOn.1
        (by show (onFailure co cb st1.now).failureHistory.length + (k - st2.calls pname) <
              co.failureThreshold
            have := hOn.2
            omega)
      refine ⟨hres, ?_⟩
      rw [show ({ st2 with now := st2.now + d } : ServiceState).calls pname =
          st2.calls pname from rfl] at hused
      rw [hused]
      omega
    · -- the succeeding invocation
      have hck' : st.calls pname = k := by omega
      have hop : failKBeh k em res0 (st1.calls pname) = Except.ok res0 := by
        simp [failKBeh, hc1, hck']
      have hstepval : step = (Except.ok res0, onSuccess co cb st1.now, true) := by
        rw [hstepdef, hop, executeStep_closed_ok co cb st1.now _ hcl]
      rw [hstepval]
      dsimp only
      exact ⟨rfl, by omega⟩

/-- C7, amended.  Each try of a retry run increments the message's recorded
attempt counter exactly once before the try executes (the counter grows by
exactly the number of tries spent); and when a provider fails exactly `k`
times and then succeeds with `k < maxAttempts`, *provided no breaker-open
rejection occurs during the run* (guaranteed here by `k < failureThreshold`
on a fresh service), the resulting status attempt count equals `k+1` with
status `sent`. -/
theorem claim_C7_retry_count_amended :
    (∀ (ro : RetryOptions) (co : CircuitBreakerOptions) (msgId pname : String)
        (beh : Nat → Except String EmailResult) (fuel aIdx : Nat)
        (st : ServiceState) (cb : CircuitBreaker) (s : EmailStatus),
      st.statuses msgId = some s →
      ((sendWithRetryAux ro co msgId pname beh fuel aIdx st cb).st.statuses msgId).map
        EmailStatus.attempts =
        some (s.attempts + (sendWithRetryAux ro co msgId pname beh fuel aIdx st cb).used)) ∧
    (∀ (opts : EmailServiceOptions) (pname : String) (k now0 : Nat)
        (em : Nat → String) (res0 : EmailResult) (msg : EmailMessage),
      k + 1 ≤ opts.retry.maxAttempts →
      k < opts.circuitBreaker.failureThreshold →
      1 ≤ opts.rateLimit.maxRequests →
      res0.success = true →
      ((sendEmail [⟨pname, failKBeh k em res0⟩] opts
          (initState [⟨pname, failKBeh k em res0⟩] opts now0) msg).st.statuses msg.id).map
        (fun s => (s.status, s.attempts)) = some (StatusKind.sent, k + 1)) := by
  constructor
  · intro ro co msgId pname beh fuel aIdx st cb s hs
    rw [sendWithRetryAux_statuses ro co msgId pname beh fuel aIdx st cb s hs]
    rfl
  · intro opts pname k now0 em res0 msg hk hthr hreq hsucc
    rw [sendEmail_eq_core _ _ _ _ (by simp [initState])]
    unfold sendEmailCore
    have hopen : allBreakersOpen [⟨pname, failKBeh k em res0⟩]
        (initState [⟨pname, failKBeh k em res0⟩] opts now0) = false := by
      simp [allBreakersOpen, initState, CircuitBreaker.init]
    rw [hopen]
    dsimp only
    have hAdm : (((initState [⟨pname, failKBeh k em res0⟩] opts now0).limiter.acquire
        (initState [⟨pname, failKBeh k em res0⟩] opts now0).now)).1 = true := by
      show ((RateLimiter.init opts.rateLimit now0).acquire now0).1 = true
      unfold RateLimiter.acquire RateLimiter.refill RateLimiter.init
      dsimp only
      rw [sub_self, zero_mul, add_zero, min_self]
      rw [if_pos (by exact_mod_cast hreq)]
    rw [hAdm]
    simp only [eq_self_iff_true, if_true]
    set stInit := initState [⟨pname, failKBeh k em res0⟩] opts now0 with hstInit
    set stL := { stInit with limiter := (stInit.limiter.acquire stInit.now).2 } with hstL
    set rec0 : EmailStatus :=
      { messageId := msg.id, recipient := msg.toAddr, subject := msg.subject,
        status := StatusKind.sending, attempts := 0, lastAttempt := none,
        provider := none, error := none, created := stInit.now } with hrec0
    set st2 := updateStatus msg.id rec0 stL with hst2v
    have hst2stat : st2.statuses msg.id = some rec0 := by
      rw [hst2v]
      simp [updateStatus]
    have hbrk : st2.breakers pname = some CircuitBreaker.init := by
      rw [hst2v, hstL, hstInit]
      simp [updateStatus, initState]
    have hcalls0 : st2.calls pname = 0 := by
      rw [hst2v, hstL, hstInit]
      rfl
    unfold sendFallbackAux
    rw [show ((⟨pname, failKBeh k em res0⟩ : Provider).name) = pname from rfl, hbrk]
    dsimp only
    obtain ⟨hres, hused⟩ := sendWithRetryAux_failThenOk opts.retry opts.circuitBreaker
      msg.id pname k em res0 opts.retry.maxAttempts 0 st2 CircuitBreaker.init
      (by rw [hcalls0]; exact Nat.zero_le k)
      (by rw [hcalls0]; omega)
      rfl
      (by rw [hcalls0]; simpa [CircuitBreaker.init] using hthr)
    rw [hres]
    dsimp only
    rw [hsucc]
    simp only [eq_self_iff_true, if_true]
    have hprev := sendWithRetryAux_statuses opts.retry opts.circuitBreaker msg.id pname
      (failKBeh k em res0) opts.retry.maxAttempts 0 st2 CircuitBreaker.init rec0 hst2stat
    simp only [updateStatus, hprev, hused, hcalls0]
    simp [hrec0]

/-- Witness for C7 amended: provider "A" failing once then succeeding, budget
3, threshold 3 — final status `sent` with 2 attempts. -/
theorem claim_C7_retry_count_amended_witness :
    ((sendEmail [⟨"A", failKBeh 1 (fun _ => "boom") (okResult "A" 0)⟩]
        ⟨⟨3, 100, 1000, 2⟩, ⟨5, 1000⟩, ⟨3, 1000, 5000⟩, false⟩
        (initState [⟨"A", failKBeh 1 (fun _ => "boom") (okResult "A" 0)⟩]
          ⟨⟨3, 100, 1000, 2⟩, ⟨5, 1000⟩, ⟨3, 1000, 5000⟩, false⟩ 1000)
        (mkMsg 1000)).st.statuses "m").map (fun s => (s.status, s.attempts)) =
      some (StatusKind.sent, 2) := by
  have h := claim_C7_retry_count_amended.2
    ⟨⟨3, 100, 1000, 2⟩, ⟨5, 1000⟩, ⟨3, 1000, 5000⟩, false⟩ "A" 1 1000
    (fun _ => "boom") (okResult "A" 0) (mkMsg 1000)
    (by decide) (by decide) (by decide) rfl
  simpa using h

/-- C7, counterexample to the claim as stated: with failure threshold 1 and a
short reset timeout, the breaker opens after the first failure, the second
try is a breaker-open *rejection* (no provider invocation) that still
increments the attempt counter, and the third try (after the backoff outlasts
the reset timeout) probes and succeeds.  The provider failed exactly k = 1
times and then succeeded with k < maxAttempts = 3, yet the recorded attempt
count is 3, not k+1 = 2. -/
theorem claim_C7_counterexample :
    (sendEmail [⟨"A", failKBeh 1 (fun _ => "boom") (okResult "A" 0)⟩]
        ⟨⟨3, 100, 10000, 2⟩, ⟨10, 1000⟩, ⟨1, 150, 10000⟩, false⟩
        (initState [⟨"A", failKBeh 1 (fun _ => "boom") (okResult "A" 0)⟩]
          ⟨⟨3, 100, 10000, 2⟩, ⟨10, 1000⟩, ⟨1, 150, 10000⟩, false⟩ 1000)
        (mkMsg 1000)).result.success = true ∧
    (sendEmail [⟨"A", failKBeh 1 (fun _ => "boom") (okResult "A" 0)⟩]
        ⟨⟨3, 100, 10000, 2⟩, ⟨10, 1000⟩, ⟨1, 150, 10000⟩, false⟩
        (initState [⟨"A", failKBeh 1 (fun _ => "boom") (okResult "A" 0)⟩]
          ⟨⟨3, 100, 10000, 2⟩, ⟨10, 1000⟩, ⟨1, 150, 10000⟩, false⟩ 1000)
        (mkMsg 1000)).st.calls "A" = 2 ∧
    (sendEmail [⟨"A", failKBeh 1 (fun _ => "boom") (okResult "A" 0)⟩]
        ⟨⟨3, 100, 10000, 2⟩, ⟨10, 1000⟩, ⟨1, 150, 10000⟩, false⟩
        (initState [⟨"A", failKBeh 1 (fun _ => "boom") (okResult "A" 0)⟩]
          ⟨⟨3, 100, 10000, 2⟩, ⟨10, 1000⟩, ⟨1, 150, 10000⟩, false⟩ 1000)
        (mkMsg 1000)).errs = ["boom", "Circuit breaker is OPEN"] ∧
    ((sendEmail [⟨"A", failKBeh 1 (fun _ => "boom") (okResult "A" 0)⟩]
        ⟨⟨3, 100, 10000, 2⟩, ⟨10, 1000⟩, ⟨1, 150, 10000⟩, false⟩
        (initState [⟨"A", failKBeh 1 (fun _ => "boom") (okResult "A" 0)⟩]
          ⟨⟨3, 100, 10000, 2⟩, ⟨10, 1000⟩, ⟨1, 150, 10000⟩, false⟩ 1000)
        (mkMsg 1000)).st.statuses "m").map EmailStatus.attempts = some 3 := by
  refine ⟨?_, ?_, ?_, ?_⟩ <;> with_unfolding_all decide

end EmailSvc

namespace EmailSvc

/-! ## Claim C8: attempt-counter monotonicity (corrected) -/

/-- C8, counterexample.  With one always-failing provider, capacity 1 and a
huge window: the first submission fails after 2 tries (status `failed`,
attempts 2); resubmitting the same message is rate-limit denied and enqueued
— `addToQueue` overwrites the status with `attempts: 0`, resetting the
counter from 2 to 0. -/
theorem claim_C8_counterexample :
    ((sendEmail [⟨"A", fun _ => Except.error "boom"⟩]
        ⟨⟨2, 1, 10, 2⟩, ⟨1, 1000000⟩, ⟨10, 1000, 5000⟩, false⟩
        (initState [⟨"A", fun _ => Except.error "boom"⟩]
          ⟨⟨2, 1, 10, 2⟩, ⟨1, 1000000⟩, ⟨10, 1000, 5000⟩, false⟩ 1000)
        (mkMsg 1000)).st.statuses "m").map EmailStatus.attempts = some 2 ∧
    ((sendEmail [⟨"A", fun _ => Except.error "boom"⟩]
        ⟨⟨2, 1, 10, 2⟩, ⟨1, 1000000⟩, ⟨10, 1000, 5000⟩, false⟩
        ((sendEmail [⟨"A", fun _ => Except.error "boom"⟩]
          ⟨⟨2, 1, 10, 2⟩, ⟨1, 1000000⟩, ⟨10, 1000, 5000⟩, false⟩
          (initState [⟨"A", fun _ => Except.error "boom"⟩]
            ⟨⟨2, 1, 10, 2⟩, ⟨1, 1000000⟩, ⟨10, 1000, 5000⟩, false⟩ 1000)
          (mkMsg 1000)).st)
        (mkMsg 1000)).st.statuses "m").map EmailStatus.attempts = some 0 ∧
    ((sendEmail [⟨"A", fun _ => Except.error "boom"⟩]
        ⟨⟨2, 1, 10, 2⟩, ⟨1, 1000000⟩, ⟨10, 1000, 5000⟩, false⟩
        ((sendEmail [⟨"A", fun _ => Except.error "boom"⟩]
          ⟨⟨2, 1, 10, 2⟩, ⟨1, 1000000⟩, ⟨10, 1000, 5000⟩, false⟩
          (initState [⟨"A", fun _ => Except.error "boom"⟩]
            ⟨⟨2, 1, 10, 2⟩, ⟨1, 1000000⟩, ⟨10, 1000, 5000⟩, false⟩ 1000)
          (mkMsg 1000)).st)
        (mkMsg 1000)).st.statuses "m").map EmailStatus.status = some .queued := by
  refine ⟨?_, ?_, ?_⟩ <;> with_unfolding_all decide

/-- C8, amended.  Within one delivery run the attempt counter only grows —
by exactly the number of tries spent — but enqueueing to the deferred queue
(and likewise re-admission of a resubmitted message) *resets* the recorded
counter to 0 rather than preserving it. -/
theorem claim_C8_attempts_amended :
    (∀ (msg : EmailMessage) (st : ServiceState),
      ((addToQueue msg st).statuses msg.id).map EmailStatus.attempts = some 0 ∧
      ((addToQueue msg st).statuses msg.id).map EmailStatus.status = some .queued) ∧
    (∀ (ro : RetryOptions) (co : CircuitBreakerOptions) (msgId pname : String)
        (beh : Nat → Except String EmailResult) (fuel aIdx : Nat)
        (st : ServiceState) (cb : CircuitBreaker) (s : EmailStatus),
      st.statuses msgId = some s →
      ((sendWithRetryAux ro co msgId pname beh fuel aIdx st cb).st.statuses msgId).map
        EmailStatus.attempts =
        some (s.attempts + (sendWithRetryAux ro co msgId pname beh fuel aIdx st cb).used)) := by
  constructor
  · intro msg st
    constructor <;> simp [addToQueue_statuses]
  · intro ro co msgId pname beh fuel aIdx st cb s hs
    rw [sendWithRetryAux_statuses ro co msgId pname beh fuel aIdx st cb s hs]
    rfl

/-- Witness for C8 amended: a status with 5 recorded attempts is reset to 0
(state `queued`) by an enqueue, and a 2-try run on a fresh status adds 2. -/
theorem claim_C8_attempts_amended_witness :
    ((addToQueue (mkMsg 7)
        (mkState (mkStatus .failed 5 (some 6) none (some "boom") 1) [] 7)).statuses "m").map
      EmailStatus.attempts = some 0 ∧
    ((sendWithRetryAux ⟨2, 1, 10, 2⟩ ⟨10, 1000, 5000⟩ "m" "A" (fun _ => Except.error "x")
        2 0 (mkState (mkStatus .sending 0 none none none 7) [] 7)
        CircuitBreaker.init).st.statuses "m").map EmailStatus.attempts =
      some (0 + (sendWithRetryAux ⟨2, 1, 10, 2⟩ ⟨10, 1000, 5000⟩ "m" "A"
        (fun _ => Except.error "x") 2 0 (mkState (mkStatus .sending 0 none none none 7) [] 7)
        CircuitBreaker.init).used) :=
  ⟨(claim_C8_attempts_amended.1 _ _).1,
    claim_C8_attempts_amended.2 _ _ "m" "A" _ 2 0 _ _
      (mkStatus .sending 0 none none none 7) (by decide)⟩

/-! ## Claim C2: exhaustion (corrected) -/

/-- A guarded call whose operation rejects always surfaces an error: the
operation's own error when the gate lets it through, the breaker-open signal
otherwise. -/
theorem executeStep_fst_error {α : Type} (co : CircuitBreakerOptions) (cb : CircuitBreaker)
    (now : Nat) (e0 : String) :
    ∃ e, (executeStep co cb now (Except.error e0 : Except String α)).1 = Except.error e := by
  unfold executeStep
  by_cases hg : (gateCheck co cb now).2 = true
  · exact ⟨e0, by simp [hg]⟩
  · exact ⟨"Circuit breaker is OPEN", by simp [hg]⟩

/-- Against an always-rejecting provider a retry run ends in an error, and
that error is the last entry of the run's error trace. -/
theorem sendWithRetryAux_allfail (ro : RetryOptions) (co : CircuitBreakerOptions)
    (msgId pname : String) (beh : Nat → Except String EmailResult)
    (hb : ∀ n, ∃ e, beh n = Except.error e) :
    ∀ (fuel aIdx : Nat) (st : ServiceState) (cb : CircuitBreaker), 1 ≤ fuel →
      ∃ e, (sendWithRetryAux ro co msgId pname beh fuel aIdx st cb).res = Except.error e ∧
        (sendWithRetryAux ro co msgId pname beh fuel aIdx st cb).errs.getLast? = some e := by
  intro fuel
  induction fuel with
  | zero => intro _ _ _ hf; exact absurd hf (by omega)
  | succ fuel ih =>
    intro aIdx st cb _
    unfold sendWithRetryAux
    dsimp only
    set st1 := incrementAttemptCount msgId st with hst1
    set step := executeStep co cb st1.now (beh (st1.calls pname)) with hstep
    obtain ⟨e0, he0⟩ := hb (st1.calls pname)
    obtain ⟨e', he'⟩ : ∃ e', step.1 = Except.error e' := by
      rw [hstep, he0]
      exact executeStep_fst_error co cb st1.now e0
    rw [he']
    dsimp only
    set st2 := setBreaker pname step.2.1
      (if step.2.2 = true then bumpCalls pname st1 else st1) with hst2
    by_cases hf : fuel = 0
    · subst hf
      simp
    · rw [if_neg hf]
      dsimp only
      set d := min (ro.baseDelay * ro.backoffFactor ^ aIdx) ro.maxDelay with hdd
      obtain ⟨e, hres, hlast⟩ := ih (aIdx + 1) { st2 with now := st2.now + d } step.2.1
        (by omega)
      refine ⟨e, hres, ?_⟩
      rw [List.getLast?_cons, hlast]
      rfl

/-- The JS read `lastError?.message || 'All providers failed'` applied to the
last error of the combined trace (or the inherited `lastError` when a
provider contributed no trace). -/
def lastOr (errs : List String) (le : Option String) : Option String :=
  match errs.getLast? with
  | some l => some l
  | none => le

/-- The text `lastErrorText` returns is never the empty string. -/
theorem lastErrorText_ne_empty : ∀ x, lastErrorText x ≠ "" := by
  intro x
  rcases x with _ | m
  · decide
  · by_cases hm : m = ""
    · subst hm; decide
    · simp only [lastErrorText]
      rw [if_neg hm]
      exact hm

/-- Against providers that always reject, the fallback sweep returns a
non-success outcome attributed to "none" whose error text is
`lastError?.message || 'All providers failed'`, where `lastError` is the
last error of the combined trace (falling back to the inherited one). -/
theorem sendFallbackAux_allfail (ro : RetryOptions) (co : CircuitBreakerOptions)
    (msg : EmailMessage) (hro : 1 ≤ ro.maxAttempts) :
    ∀ (ps : List Provider) (lastErr : Option String) (st : ServiceState),
      (∀ p ∈ ps, ∀ n, ∃ e, p.behavior n = Except.error e) →
      (sendFallbackAux ro co msg ps lastErr st).result.success = false ∧
      (sendFallbackAux ro co msg ps lastErr st).result.provider = "none" ∧
      (sendFallbackAux ro co msg ps lastErr st).result.messageId = none ∧
      (sendFallbackAux ro co msg ps lastErr st).result.error =
        some (lastErrorText (lastOr (sendFallbackAux ro co msg ps lastErr st).errs lastErr)) := by
  intro ps
  induction ps with
  | nil =>
    intro lastErr st _
    refine ⟨rfl, rfl, rfl, ?_⟩
    simp [sendFallbackAux, lastOr]
  | cons p rest ih =>
    intro lastErr st hb
    unfold sendFallbackAux
    rcases hbr : st.breakers p.name with _ | cb
    · exact ih lastErr st (fun q hq => hb q (List.mem_cons_of_mem p hq))
    · dsimp only
      obtain ⟨e, hres, hlast⟩ := sendWithRetryAux_allfail ro co msg.id p.name p.behavior
        (hb p (List.mem_cons_self p rest)) ro.maxAttempts 0 st cb hro
      rw [hres]
      dsimp only
      obtain ⟨h1, h2, h3, h4⟩ := ih (some e)
        (sendWithRetryAux ro co msg.id p.name p.behavior ro.maxAttempts 0 st cb).st
        (fun q hq => hb q (List.mem_cons_of_mem p hq))
      refine ⟨h1, h2, h3, ?_⟩
      rw [h4]
      have hcomp : lastOr ((sendWithRetryAux ro co msg.id p.name p.behavior
            ro.maxAttempts 0 st cb).errs ++
          (sendFallbackAux ro co msg rest (some e)
            (sendWithRetryAux ro co msg.id p.name p.behavior
              ro.maxAttempts 0 st cb).st).errs) lastErr =
          lastOr (sendFallbackAux ro co msg rest (some e)
            (sendWithRetryAux ro co msg.id p.name p.behavior
              ro.maxAttempts 0 st cb).st).errs (some e) := by
        unfold lastOr
        rw [List.getLast?_append]
        rcases ho : (sendFallbackAux ro co msg rest (some e)
            (sendWithRetryAux ro co msg.id p.name p.behavior
              ro.maxAttempts 0 st cb).st).errs.getLast? with _ | l
        · simp [hlast]
        · simp
      rw [hcomp]

/-- C2, amended.  When every configured provider rejects every invocation,
`sendEmail` does not raise: it returns a failure outcome with non-empty
error text — the most recent error encountered whenever that error's text is
non-empty, and the fixed text `All providers failed` otherwise (the code's
`lastError?.message || '...'` treats an empty message as absent) — and the
recorded status is `failed`. -/
theorem claim_C2_exhaustion_amended (providers : List Provider)
    (opts : EmailServiceOptions) (st : ServiceState) (msg : EmailMessage)
    (hfail : ∀ p ∈ providers, ∀ n, ∃ e, p.behavior n = Except.error e)
    (hidem : ¬ (st.sentEmails.contains msg.id = true ∧
        ∃ s, st.statuses msg.id = some s ∧ s.status = .sent))
    (hopen : allBreakersOpen providers st = false)
    (hAdm : (st.limiter.acquire st.now).1 = true)
    (hro : 1 ≤ opts.retry.maxAttempts) :
    (sendEmail providers opts st msg).result.success = false ∧
    ((sendEmail providers opts st msg).st.statuses msg.id).map EmailStatus.status =
      some .failed ∧
    ∃ e, (sendEmail providers opts st msg).result.error = some e ∧ e ≠ "" ∧
      ∀ l, (sendEmail providers opts st msg).errs.getLast? = some l → l ≠ "" → e = l := by
  rw [sendEmail_eq_core providers opts st msg hidem]
  unfold sendEmailCore
  rw [hopen]
  dsimp only
  rw [hAdm]
  simp only [eq_self_iff_true, if_true]
  obtain ⟨h1, h2, h3, h4⟩ := sendFallbackAux_allfail opts.retry opts.circuitBreaker msg hro
    providers none
    (updateStatus msg.id
      { messageId := msg.id, recipient := msg.toAddr, subject := msg.subject,
        status := .sending, attempts := 0, lastAttempt := none, provider := none,
        error := none, created := st.now }
      { st with limiter := (st.limiter.acquire st.now).2 })
    hfail
  rw [h1]
  simp only [Bool.false_eq_true, if_false]
  refine ⟨h1, by simp [updateStatus], ?_⟩
  refine ⟨_, h4, lastErrorText_ne_empty _, ?_⟩
  intro l hl hlne
  unfold lastOr
  rw [hl, lastErrorText, if_neg hlne]

/-- Witness for C2 amended: a single provider rejecting every call with
"boom" under maxAttempts 1 — failure returned, error "boom", status failed. -/
theorem claim_C2_exhaustion_amended_witness :
    (sendEmail [⟨"A", fun _ => Except.error "boom"⟩]
      ⟨⟨1, 1, 10, 2⟩, ⟨5, 1000⟩, ⟨3, 1000, 5000⟩, false⟩
      (initState [⟨"A", fun _ => Except.error "boom"⟩]
        ⟨⟨1, 1, 10, 2⟩, ⟨5, 1000⟩, ⟨3, 1000, 5000⟩, false⟩ 1000)
      (mkMsg 1000)).result.success = false ∧
    (sendEmail [⟨"A", fun _ => Except.error "boom"⟩]
      ⟨⟨1, 1, 10, 2⟩, ⟨5, 1000⟩, ⟨3, 1000, 5000⟩, false⟩
      (initState [⟨"A", fun _ => Except.error "boom"⟩]
        ⟨⟨1, 1, 10, 2⟩, ⟨5, 1000⟩, ⟨3, 1000, 5000⟩, false⟩ 1000)
      (mkMsg 1000)).result.error = some "boom" ∧
    ((sendEmail [⟨"A", fun _ => Except.error "boom"⟩]
      ⟨⟨1, 1, 10, 2⟩, ⟨5, 1000⟩, ⟨3, 1000, 5000⟩, false⟩
      (initState [⟨"A", fun _ => Except.error "boom"⟩]
        ⟨⟨1, 1, 10, 2⟩, ⟨5, 1000⟩, ⟨3, 1000, 5000⟩, false⟩ 1000)
      (mkMsg 1000)).st.statuses "m").map EmailStatus.status = some .failed := by
  have h := claim_C2_exhaustion_amended [⟨"A", fun _ => Except.error "boom"⟩]
    ⟨⟨1, 1, 10, 2⟩, ⟨5, 1000⟩, ⟨3, 1000, 5000⟩, false⟩
    (initState [⟨"A", fun _ => Except.error "boom"⟩]
      ⟨⟨1, 1, 10, 2⟩, ⟨5, 1000⟩, ⟨3, 1000, 5000⟩, false⟩ 1000)
    (mkMsg 1000)
    (by intro p hp n
        simp only [List.mem_singleton] at hp
        subst hp
        exact ⟨"boom", rfl⟩)
    (by simp [initState])
    (by with_unfolding_all decide)
    (by with_unfolding_all decide)
    (by decide)
  obtain ⟨hs, hst, e, he, hne, hl⟩ := h
  refine ⟨hs, ?_, hst⟩
  have hlast : (sendEmail [⟨"A", fun _ => Except.error "boom"⟩]
      ⟨⟨1, 1, 10, 2⟩, ⟨5, 1000⟩, ⟨3, 1000, 5000⟩, false⟩
      (initState [⟨"A", fun _ => Except.error "boom"⟩]
        ⟨⟨1, 1, 10, 2⟩, ⟨5, 1000⟩, ⟨3, 1000, 5000⟩, false⟩ 1000)
      (mkMsg 1000)).errs.getLast? = some "boom" := by
    with_unfolding_all decide
  rw [he, hl "boom" hlast (by decide)]

/-- C2, counterexample to the claim as stated: a provider whose rejection
carries the *empty* error text.  The returned failure's error is the
non-empty fallback `All providers failed`, not the most recent error
encountered (which is `""`). -/
theorem claim_C2_counterexample :
    (sendEmail [⟨"A", fun _ => Except.error ""⟩]
      ⟨⟨1, 1, 10, 2⟩, ⟨5, 1000⟩, ⟨3, 1000, 5000⟩, false⟩
      (initState [⟨"A", fun _ => Except.error ""⟩]
        ⟨⟨1, 1, 10, 2⟩, ⟨5, 1000⟩, ⟨3, 1000, 5000⟩, false⟩ 1000)
      (mkMsg 1000)).errs.getLast? = some "" ∧
    (sendEmail [⟨"A", fun _ => Except.error ""⟩]
      ⟨⟨1, 1, 10, 2⟩, ⟨5, 1000⟩, ⟨3, 1000, 5000⟩, false⟩
      (initState [⟨"A", fun _ => Except.error ""⟩]
        ⟨⟨1, 1, 10, 2⟩, ⟨5, 1000⟩, ⟨3, 1000, 5000⟩, false⟩ 1000)
      (mkMsg 1000)).result.error = some "All providers failed" ∧
    (sendEmail [⟨"A", fun _ => Except.error ""⟩]
      ⟨⟨1, 1, 10, 2⟩, ⟨5, 1000⟩, ⟨3, 1000, 5000⟩, false⟩
      (initState [⟨"A", fun _ => Except.error ""⟩]
        ⟨⟨1, 1, 10, 2⟩, ⟨5, 1000⟩, ⟨3, 1000, 5000⟩, false⟩ 1000)
      (mkMsg 1000)).result.error ≠ some "" := by
  refine ⟨?_, ?_, ?_⟩ <;> with_unfolding_all decide

/-! ## Claim C10: empty provider list -/

/-- With an empty provider list the `every`-quantified breaker check is
vacuously true, so the core path always enqueues. -/
theorem sendEmailCore_nil (opts : EmailServiceOptions) (st : ServiceState)
    (msg : EmailMessage) :
    sendEmailCore [] opts st msg =
      ⟨{ success := false, messageId := none,
         error := some "All providers temporarily unavailable. Email queued for retry.",
         provider := "queue", timestamp := (addToQueue msg st).now }, addToQueue msg st, []⟩ := by
  unfold sendEmailCore allBreakersOpen
  simp

/-- If the idempotency replay branch fires, the state is left untouched. -/
theorem sendEmail_replay_state (providers : List Provider) (opts : EmailServiceOptions)
    (st : ServiceState) (msg : EmailMessage) (s : EmailStatus)
    (hc : st.sentEmails.contains msg.id = true)
    (hs : st.statuses msg.id = some s) (hsent : s.status = .sent) :
    (sendEmail providers opts st msg).st = st := by
  unfold sendEmail
  rw [if_pos hc, hs]
  dsimp only
  rw [if_pos hsent]

/-- C10.  Constructed with an empty provider list, `sendEmail` takes the
all-breakers-open branch for every message not already recorded as sent —
the status becomes `queued` and a non-success outcome attributed to "queue"
is returned — and across any sequence of submissions no message ever
reaches status `sent`. -/
theorem claim_C10_empty_providers :
    (∀ (opts : EmailServiceOptions) (st : ServiceState) (msg : EmailMessage),
      ¬ (st.sentEmails.contains msg.id = true ∧
          ∃ s, st.statuses msg.id = some s ∧ s.status = .sent) →
      (sendEmail [] opts st msg).result.success = false ∧
      (sendEmail [] opts st msg).result.provider = "queue" ∧
      ((sendEmail [] opts st msg).st.statuses msg.id).map EmailStatus.status =
        some .queued) ∧
    (∀ (opts : EmailServiceOptions) (now0 : Nat) (msgs : List EmailMessage)
        (id : String) (s : EmailStatus),
      ((msgs.foldl (fun st m => (sendEmail [] opts st m).st)
          (initState [] opts now0)).statuses id) = some s →
      s.status ≠ .sent) := by
  constructor
  · intro opts st msg h
    rw [sendEmail_eq_core [] opts st msg h, sendEmailCore_nil]
    refine ⟨rfl, rfl, ?_⟩
    simp [addToQueue_statuses]
  · intro opts now0 msgs
    have key : ∀ (msgs : List EmailMessage) (st : ServiceState),
        (∀ id s, st.statuses id = some s → s.status ≠ .sent) →
        ∀ id s, ((msgs.foldl (fun st m => (sendEmail [] opts st m).st) st).statuses id) =
          some s → s.status ≠ .sent := by
      intro msgs
      induction msgs with
      | nil => intro st hinv id s hs; exact hinv id s hs
      | cons m rest ih =>
        intro st hinv id s hs
        rw [List.foldl_cons] at hs
        refine ih ((sendEmail [] opts st m).st) ?_ id s hs
        by_cases hb : (st.sentEmails.contains m.id = true ∧
            ∃ s, st.statuses m.id = some s ∧ s.status = .sent)
        · rcases hb with ⟨hc, s', hs', hsent'⟩
          rw [sendEmail_replay_state [] opts st m s' hc hs' hsent']
          exact hinv
        · rw [sendEmail_eq_core [] opts st m hb, sendEmailCore_nil]
          intro id' s' hs'
          rw [addToQueue_statuses] at hs'
          by_cases hid : id' = m.id
          · rw [if_pos hid] at hs'
            cases hs'
            simp
          · rw [if_neg hid] at hs'
            exact hinv id' s' hs'
    exact key msgs (initState [] opts now0) (fun id s h => by simp [initState] at h)

/-- Witness for C10: a fresh no-provider service queues the first message and
returns a non-success outcome attributed to "queue". -/
theorem claim_C10_empty_providers_witness :
    (sendEmail [] ⟨⟨3, 100, 1000, 2⟩, ⟨5, 1000⟩, ⟨3, 1000, 5000⟩, false⟩
      (initState [] ⟨⟨3, 100, 1000, 2⟩, ⟨5, 1000⟩, ⟨3, 1000, 5000⟩, false⟩ 5)
      (mkMsg 5)).result.success = false ∧
    ((sendEmail [] ⟨⟨3, 100, 1000, 2⟩, ⟨5, 1000⟩, ⟨3, 1000, 5000⟩, false⟩
      (initState [] ⟨⟨3, 100, 1000, 2⟩, ⟨5, 1000⟩, ⟨3, 1000, 5000⟩, false⟩ 5)
      (mkMsg 5)).st.statuses "m").map EmailStatus.status = some .queued := by
  have h := claim_C10_empty_providers.1 ⟨⟨3, 100, 1000, 2⟩, ⟨5, 1000⟩, ⟨3, 1000, 5000⟩, false⟩
    (initState [] ⟨⟨3, 100, 1000, 2⟩, ⟨5, 1000⟩, ⟨3, 1000, 5000⟩, false⟩ 5)
    (mkMsg 5) (by simp [initState])
  exact ⟨h.1, h.2.2⟩

end EmailSvc
